import Mathlib

/-!
Verification of the RAG pipeline notebook `src/langchain/jupyter/LCEL/rag.ipynb`.

The notebook assembles a retrieval-augmented-generation pipeline from framework
components: a web loader, `RecursiveCharacterTextSplitter` (chunk size 1000,
overlap 200, start indices recorded), a Chroma vector store, a retriever with
search type similarity and k = 6, two prompt templates, a chat model, and a
string output parser, composed with the pipe operator.  The only function the
repository defines itself is `format_docs`; the library components are modelled
from the specification (sliding-window chunking, similarity-ranked retrieval,
template substitution, plain sequencing of fallible stages).
-/

/-- A LangChain document: free text plus metadata.  The metadata fields used by
the notebook are the source URL (set by the loader) and the start offset
(set by the splitter when add_start_index is true; `none` on loader output). -/
structure Doc where
  page_content : String
  source : String
  start_index : Option Nat
  deriving DecidableEq, Repr

/-- Embedding of the notebook function `format_docs`: join the page contents of
the documents with a blank line (the Python join on the two-character
separator of two newlines). -/
def format_docs (docs : List Doc) : String :=
  String.intercalate "\n\n" (docs.map Doc.page_content)

/-- Reference formulation of the C9 claim wording: the concatenation of each
page content in list order, separated by the two-character sequence of two
newline characters; empty string on the empty list, the single page content
unchanged on a singleton. -/
def joinDocsSpec : List Doc → String
  | [] => ""
  | [d] => d.page_content
  | d :: ds => d.page_content ++ "\n\n" ++ joinDocsSpec ds

lemma intercalate_go_pull (s x y : String) : ∀ (as : List String),
    String.intercalate.go (x ++ y) s as = x ++ String.intercalate.go y s as := by
  intro as
  induction as generalizing y with
  | nil => rfl
  | cons a t ih =>
    show String.intercalate.go (x ++ y ++ s ++ a) s t
        = x ++ String.intercalate.go (y ++ s ++ a) s t
    rw [← ih]
    simp [String.append_assoc]

lemma intercalate_cons_cons (s a b : String) (t : List String) :
    String.intercalate s (a :: b :: t) = a ++ s ++ String.intercalate s (b :: t) := by
  show String.intercalate.go (a ++ s ++ b) s t = _
  rw [intercalate_go_pull]
  rfl

/-- C9: `format_docs` returns exactly the concatenation of each page content in
list order separated by a double newline; in particular the empty string for
the empty list, and the single page content unchanged for a singleton. -/
theorem format_docs_is_join (docs : List Doc) : format_docs docs = joinDocsSpec docs := by
  induction docs with
  | nil => rfl
  | cons d ds ih =>
    cases ds with
    | nil => rfl
    | cons e t =>
      show String.intercalate "\n\n" (d.page_content :: e.page_content :: (t.map Doc.page_content))
          = d.page_content ++ "\n\n" ++ joinDocsSpec (e :: t)
      rw [intercalate_cons_cons, ← ih]
      rfl

/-- Modelled from the spec: the Chroma vector store and the retriever obtained
from `as_retriever` are external library code not under src.  Spec section 4.4:
given a query string and a result count k, retrieval returns the k chunks with
highest similarity to the embedding of the query, in descending relevance
order.  The index is modelled as the stored list of chunks together with a
similarity function `sim` scoring each stored chunk against a query. -/
def similarity_search (sim : String → Doc → Int) (store : List Doc) (q : String)
    (k : Nat) : List Doc :=
  (store.mergeSort (fun a b => decide (sim q b ≤ sim q a))).take k

/-- Embedding of the notebook line building the retriever with search type
similarity and k = 6, applied to a query as `retriever.invoke` does. -/
def retriever_invoke (sim : String → Doc → Int) (store : List Doc) (q : String) :
    List Doc :=
  similarity_search sim store q 6

/-- Retrieval invocation made state-passing explicit: it returns the retrieved
chunks together with the (unchanged) index state. -/
def retriever_invoke_st (sim : String → Doc → Int) (store : List Doc) (q : String) :
    List Doc × List Doc :=
  (similarity_search sim store q 6, store)

lemma mergeSort_le_trans (sim : String → Doc → Int) (q : String) :
    ∀ (a b c : Doc), (fun a b => decide (sim q b ≤ sim q a)) a b = true →
      (fun a b => decide (sim q b ≤ sim q a)) b c = true →
      (fun a b => decide (sim q b ≤ sim q a)) a c = true := by
  intro a b c hab hbc
  simp only [decide_eq_true_eq] at *
  exact le_trans hbc hab

lemma mergeSort_le_total (sim : String → Doc → Int) (q : String) :
    ∀ (a b : Doc), ((fun a b => decide (sim q b ≤ sim q a)) a b
      || (fun a b => decide (sim q b ≤ sim q a)) b a) = true := by
  intro a b
  simp only [Bool.or_eq_true, decide_eq_true_eq]
  exact le_total _ _

/-- C1: invoking the retriever (built with search type similarity and k = 6)
returns exactly min 6 (collection size) chunks, ordered by non-increasing
similarity score to the query embedding. -/
theorem retriever_invoke_min6_sorted (sim : String → Doc → Int) (store : List Doc)
    (q : String) :
    (retriever_invoke sim store q).length = min 6 store.length ∧
    List.Pairwise (fun a b => sim q b ≤ sim q a) (retriever_invoke sim store q) := by
  constructor
  · simp [retriever_invoke, similarity_search]
  · have hs := List.sorted_mergeSort (mergeSort_le_trans sim q)
      (mergeSort_le_total sim q) store
    have ht : List.Pairwise (fun a b : Doc => decide (sim q b ≤ sim q a) = true)
        (retriever_invoke sim store q) :=
      List.Pairwise.sublist (List.take_sublist 6 _) hs
    exact ht.imp (by intro a b h; exact of_decide_eq_true h)

/-- C5: two invocations of retrieval with an identical query against an
identical (unchanged) index state return the same chunks in the same order;
the first invocation leaves the index state unchanged, and the second
invocation on that state yields the same retrieved list. -/
theorem retriever_invoke_deterministic (sim : String → Doc → Int) (store : List Doc)
    (q : String) :
    (retriever_invoke_st sim store q).2 = store ∧
    (retriever_invoke_st sim (retriever_invoke_st sim store q).2 q).1
      = (retriever_invoke_st sim store q).1 :=
  ⟨rfl, rfl⟩

/-- Modelled from the spec: `RecursiveCharacterTextSplitter.split_documents` is
external library code not under src.  Spec section 3: one Document produces a
sequence of Chunks via a sliding window with fixed size and overlap, each chunk
annotated with its start offset.  Fuel-based recursion; the caller passes the
text length as fuel, which suffices whenever the step is positive. -/
def slidingChunksAux (C step : Nat) (l : List Char) : Nat → Nat → List (Nat × List Char)
  | 0, pos => [(pos, (l.drop pos).take C)]
  | Nat.succ fuel, pos =>
    if l.length ≤ pos + C then [(pos, (l.drop pos).take C)]
    else (pos, (l.drop pos).take C) :: slidingChunksAux C step l fuel (pos + step)

/-- Sliding-window split of a single text with chunk size C and overlap O:
windows start at offsets 0, C-O, 2(C-O), ... and each chunk is the window of
at most C characters at its offset. -/
def splitText (C O : Nat) (s : String) : List (Nat × String) :=
  (slidingChunksAux C (C - O) s.toList s.toList.length 0).map
    (fun p => (p.1, String.mk p.2))

/-- Embedding of `text_splitter.split_documents(docs)` with add_start_index
true: every document is split, each chunk carries the source of its
originating document and its start offset. -/
def split_documents (C O : Nat) (docs : List Doc) : List Doc :=
  docs.flatMap (fun d => (splitText C O d.page_content).map
    (fun p => { page_content := p.2, source := d.source, start_index := some p.1 }))

/-- Number of characters two chunks (given as start offset and text) share:
the size of the intersection of their index ranges. -/
def chunkOverlap (a b : Nat × String) : Nat :=
  min (a.1 + a.2.length) (b.1 + b.2.length) - max a.1 b.1

lemma slidingChunksAux_head (C step : Nat) (l : List Char) (fuel pos : Nat) :
    ∃ rest, slidingChunksAux C step l fuel pos = (pos, (l.drop pos).take C) :: rest := by
  cases fuel with
  | zero => exact ⟨[], rfl⟩
  | succ n =>
    show ∃ rest, (if l.length ≤ pos + C then _ else _) = _
    split
    · exact ⟨[], rfl⟩
    · exact ⟨_, rfl⟩

lemma slidingChunksAux_mem (C step : Nat) (l : List Char) :
    ∀ (fuel pos : Nat), ∀ c ∈ slidingChunksAux C step l fuel pos,
      c.2 = (l.drop c.1).take C := by
  intro fuel
  induction fuel with
  | zero =>
    intro pos c hc
    simp only [slidingChunksAux, List.mem_singleton] at hc
    subst hc; rfl
  | succ n ih =>
    intro pos c hc
    simp only [slidingChunksAux] at hc
    split at hc
    · simp only [List.mem_singleton] at hc
      subst hc; rfl
    · rcases List.mem_cons.mp hc with h | h
      · subst h; rfl
      · exact ih _ c h

lemma slidingChunksAux_chain (C step : Nat) (l : List Char) :
    ∀ (fuel pos : Nat),
      List.Chain' (fun a b => b.1 = a.1 + step ∧ a.1 + C < l.length ∧
          a.2 = (l.drop a.1).take C ∧ b.2 = (l.drop b.1).take C)
        (slidingChunksAux C step l fuel pos) := by
  intro fuel
  induction fuel with
  | zero => intro pos; simp [slidingChunksAux]
  | succ n ih =>
    intro pos
    show List.Chain' _ (if l.length ≤ pos + C then _ else _)
    split
    · simp
    · rename_i hlt
      obtain ⟨rest, hrest⟩ := slidingChunksAux_head C step l n (pos + step)
      rw [hrest, List.chain'_cons]
      refine ⟨⟨rfl, by omega, rfl, rfl⟩, ?_⟩
      rw [← hrest]
      exact ih (pos + step)

lemma splitText_mem (C O : Nat) (s : String) :
    ∀ c ∈ splitText C O s, c.2.toList = (s.toList.drop c.1).take C := by
  intro c hc
  simp only [splitText, List.mem_map] at hc
  obtain ⟨p, hp, hpc⟩ := hc
  have := slidingChunksAux_mem C (C - O) s.toList s.toList.length 0 p hp
  subst hpc
  exact this

lemma splitText_len (C O : Nat) (s : String) :
    ∀ c ∈ splitText C O s, c.2.length = min C (s.toList.length - c.1) := by
  intro c hc
  have h := splitText_mem C O s c hc
  have : c.2.length = c.2.toList.length := rfl
  rw [this, h, List.length_take, List.length_drop]

lemma splitText_chain (C O : Nat) (s : String) :
    List.Chain' (fun a b => b.1 = a.1 + (C - O) ∧ a.1 + C < s.toList.length ∧
        a.2.length = min C (s.toList.length - a.1) ∧
        b.2.length = min C (s.toList.length - b.1))
      (splitText C O s) := by
  have h := slidingChunksAux_chain C (C - O) s.toList s.toList.length 0
  rw [splitText, List.chain'_map]
  refine List.Chain'.imp ?_ h
  intro a b hab
  obtain ⟨h1, h2, h3, h4⟩ := hab
  refine ⟨h1, h2, ?_, ?_⟩
  · show a.2.length = _
    rw [h3, List.length_take, List.length_drop]
  · show b.2.length = _
    rw [h4, List.length_take, List.length_drop]

/-- C2: splitting with chunk size 1000 and overlap 200, every chunk in the
output (the final one included, hence in particular every chunk except
possibly the final one) has length at most 1000 characters, and every chunk
after the first begins at an offset at most 200 characters before the end of
the previous chunk. -/
theorem splitter_chunk_size_and_offset (s : String) :
    (∀ c ∈ splitText 1000 200 s, c.2.length ≤ 1000) ∧
    List.Chain' (fun a b => a.1 + a.2.length ≤ b.1 + 200) (splitText 1000 200 s) := by
  constructor
  · intro c hc
    have h := splitText_len 1000 200 s c hc
    omega
  · refine List.Chain'.imp ?_ (splitText_chain 1000 200 s)
    intro a b hab
    obtain ⟨h1, h2, h3, h4⟩ := hab
    omega

/-- C3: every pair of consecutive chunks produced by the splitter overlaps by
exactly the configured 200 characters (in the sliding-window model even the
final chunk overlaps its predecessor by exactly 200, so no exception is
needed). -/
theorem splitter_overlap_exact (s : String) :
    List.Chain' (fun a b => chunkOverlap a b = 200) (splitText 1000 200 s) := by
  refine List.Chain'.imp ?_ (splitText_chain 1000 200 s)
  intro a b hab
  obtain ⟨h1, h2, h3, h4⟩ := hab
  simp only [chunkOverlap]
  omega

/-- C4: every chunk produced by split_documents originates from some input
document, carries that document's source metadata, records a start offset in
its metadata, and its text is the substring of the document text occurring at
exactly that offset. -/
theorem split_documents_substring_metadata (docs : List Doc) (c : Doc)
    (hc : c ∈ split_documents 1000 200 docs) :
    ∃ d ∈ docs, c.source = d.source ∧
      ∃ pos, c.start_index = some pos ∧
        c.page_content.toList
          = (d.page_content.toList.drop pos).take c.page_content.toList.length := by
  rw [split_documents, List.mem_flatMap] at hc
  obtain ⟨d, hd, hcd⟩ := hc
  rw [List.mem_map] at hcd
  obtain ⟨p, hp, hpc⟩ := hcd
  have hmem := splitText_mem 1000 200 d.page_content p hp
  refine ⟨d, hd, ?_, p.1, ?_, ?_⟩
  · rw [← hpc]
  · rw [← hpc]
  · rw [← hpc]
    show p.2.toList = (d.page_content.toList.drop p.1).take p.2.toList.length
    rw [hmem, List.length_take, List.length_drop, ← List.take_take]
    rw [← List.length_drop, List.take_length]

/-- Witness for C2 at a concrete input: the two-character text is split into
the single chunk at offset 0, whose length is at most 1000. -/
theorem splitter_chunk_size_and_offset_witness :
    ((0, "hi") : Nat × String) ∈ splitText 1000 200 "hi" ∧
    (((0, "hi") : Nat × String)).2.length ≤ 1000 :=
  ⟨by decide, (splitter_chunk_size_and_offset "hi").1 (0, "hi") (by decide)⟩

/-- Witness for C4 at a concrete input: the single chunk of a two-character
document carries the source, start offset 0, and the text itself. -/
theorem split_documents_substring_metadata_witness :
    (⟨"hi", "url", some 0⟩ : Doc) ∈ split_documents 1000 200 [⟨"hi", "url", none⟩] ∧
    ∃ d ∈ [(⟨"hi", "url", none⟩ : Doc)], (⟨"hi", "url", some 0⟩ : Doc).source = d.source ∧
      ∃ pos, (⟨"hi", "url", some 0⟩ : Doc).start_index = some pos ∧
        (⟨"hi", "url", some 0⟩ : Doc).page_content.toList
          = (d.page_content.toList.drop pos).take
              (⟨"hi", "url", some 0⟩ : Doc).page_content.toList.length :=
  ⟨by decide, split_documents_substring_metadata [⟨"hi", "url", none⟩] _ (by decide)⟩

/-- Embedding of the rlm/rag-prompt template pulled from the hub, as printed by
the notebook, with the two placeholders substituted (PromptTemplate
substitution modelled as string concatenation at the placeholder positions). -/
def rag_prompt (context question : String) : String :=
  "You are an assistant for question-answering tasks. Use the following pieces of retrieved context to answer the question. If you don\x27t know the answer, just say that you don\x27t know. Use three sentences maximum and keep the answer concise.\nQuestion: "
    ++ question ++ " \nContext: " ++ context ++ " \nAnswer:"

/-- Embedding of the custom template defined in the notebook (the variable
named template), with the two placeholders substituted. -/
def custom_template (context question : String) : String :=
  "Use the following pieces of context to answer the question at the end.\nIf you don\x27t know the answer, just say that you don\x27t know, don\x27t try to make up an answer.\nUse three sentences maximum and keep the answer as concise as possible.\nAlways say \"thanks for asking!\" at the end of the answer.\n\n"
    ++ context ++ "\n\nQuestion: " ++ question ++ "\n\nHelpful Answer:"

/-- Embedding of StrOutputParser: it extracts the string content of the model
output; on the string content itself it is the identity. -/
def StrOutputParser (s : String) : String := s

/-- Context sub-chain of rag_chain as the notebook writes it: the retriever
piped into format_docs. -/
def rag_context (sim : String → Doc → Int) (store : List Doc) (q : String) : String :=
  format_docs (retriever_invoke sim store q)

/-- Context sub-chain of custom_rag_chain as the notebook writes it: the same
retriever piped into the same format_docs. -/
def custom_rag_context (sim : String → Doc → Int) (store : List Doc) (q : String) :
    String :=
  format_docs (retriever_invoke sim store q)

/-- Embedding of rag_chain: context and question feed the hub prompt, then the
model, then the output parser.  The chat model is an external collaborator and
is a parameter. -/
def rag_chain (sim : String → Doc → Int) (store : List Doc) (llm : String → String)
    (q : String) : String :=
  StrOutputParser (llm (rag_prompt (rag_context sim store q) q))

/-- Embedding of custom_rag_chain: same context sub-chain, custom prompt, same
model, same output parser. -/
def custom_rag_chain (sim : String → Doc → Int) (store : List Doc)
    (llm : String → String) (q : String) : String :=
  StrOutputParser (llm (custom_template (custom_rag_context sim store q) q))

/-- Boolean test that the pattern is an initial segment of the list. -/
def strStartsWithL : List Char → List Char → Bool
  | [], _ => true
  | _ :: _, [] => false
  | a :: ps, b :: ls => a == b && strStartsWithL ps ls

/-- Boolean test that the pattern occurs somewhere in the list. -/
def strHasSubL (p : List Char) : List Char → Bool
  | [] => strStartsWithL p []
  | b :: ls => strStartsWithL p (b :: ls) || strHasSubL p ls

/-- Boolean test that the pattern occurs as a substring. -/
def strHasSub (pat s : String) : Bool :=
  strHasSubL pat.toList s.toList

/-- Boolean test that the string ends with the pattern. -/
def strEndsWith (pat s : String) : Bool :=
  strStartsWithL pat.toList.reverse s.toList.reverse

/-- The query of the first recorded rag_chain.stream call in the notebook. -/
def recorded_rag_query : String :=
  "What challenges arise in ensuring the faithfulness of chain-of-thought reasoning during reinforcement learning training, and how can reward hacking be mitigated?"

/-- The answer recorded in the notebook output for the first rag_chain.stream
call (the streamed fragments concatenated). -/
def recorded_rag_answer : String :=
  "Ensuring the faithfulness of chain-of-thought reasoning during reinforcement learning (RL) training is challenging due to the model\x27s potential to exploit flaws in the reward system, a phenomenon known as reward hacking. To mitigate reward hacking, one should be cautious about directly optimizing on the chain-of-thought and consider alternative approaches or avoid it altogether, as relying solely on heuristic investigation and manual fixes can lead to an endless cycle of addressing new issues."

set_option maxRecDepth 100000 in
/-- C6: on the fixed document and query of the notebook run, with the chat
model behaving as recorded in the notebook output, the full RAG chain
(retriever, prompt, model, string output parser) returns a non-empty answer
that contains neither the literal placeholder for context nor the literal
placeholder for question. -/
theorem rag_chain_answer_nonempty_no_placeholder (sim : String → Doc → Int)
    (store : List Doc) :
    rag_chain sim store (fun _ => recorded_rag_answer) recorded_rag_query ≠ "" ∧
    strHasSub "{context}"
      (rag_chain sim store (fun _ => recorded_rag_answer) recorded_rag_query) = false ∧
    strHasSub "{question}"
      (rag_chain sim store (fun _ => recorded_rag_answer) recorded_rag_query) = false := by
  refine ⟨?_, ?_, ?_⟩
  · show recorded_rag_answer ≠ ""
    decide
  · show strHasSub "{context}" recorded_rag_answer = false
    decide
  · show strHasSub "{question}" recorded_rag_answer = false
    decide

/-- C7: when the custom template instructing the model to always close with
thanks for asking is used and the model complies with the instruction (every
model answer ends with the phrase), every answer generated by the custom RAG
chain ends with the phrase; the string output parser preserves it. -/
theorem custom_rag_chain_closing_phrase (sim : String → Doc → Int) (store : List Doc)
    (llm : String → String) (q : String)
    (hcomply : ∀ p, strEndsWith "thanks for asking!" (llm p) = true) :
    strEndsWith "thanks for asking!" (custom_rag_chain sim store llm q) = true :=
  hcomply _

/-- Witness for C7 at a concrete compliant model: the chain output ends with
the closing phrase. -/
theorem custom_rag_chain_closing_phrase_witness :
    strEndsWith "thanks for asking!"
      (custom_rag_chain (fun _ _ => 0) [] (fun _ => "It helps. thanks for asking!") "q")
      = true :=
  custom_rag_chain_closing_phrase (fun _ _ => 0) [] _ "q" (fun _ => by decide)

/-- C10: the default chain and the custom-prompt chain share the identical
context-building sub-chain, so the context text inserted into the two prompts
is the same string for every query and index state; the chains differ only in
the template applied to it. -/
theorem chains_share_context_subchain (sim : String → Doc → Int) (store : List Doc)
    (llm : String → String) (q : String) :
    rag_context sim store q = custom_rag_context sim store q ∧
    rag_chain sim store llm q
      = StrOutputParser (llm (rag_prompt (rag_context sim store q) q)) ∧
    custom_rag_chain sim store llm q
      = StrOutputParser (llm (custom_template (rag_context sim store q) q)) :=
  ⟨rfl, rfl, rfl⟩

/-- Modelled from the spec: the notebook sequences its five stages as
straight-line code with no handler of its own (spec section 7: failures
propagate directly from the external collaborator to the top-level execution
context).  Each external collaborator is a parameter returning Except; the
pipeline is their plain sequencing interleaved with the repository-owned pure
steps (splitting, context formatting, prompt building). -/
def rag_pipeline (ε σ : Type) (load : Unit → Except ε (List Doc))
    (embed_store : List Doc → Except ε σ)
    (retrieve : σ → String → Except ε (List Doc))
    (generate : String → Except ε String) (q : String) : Except ε String :=
  match load () with
  | Except.error e => Except.error e
  | Except.ok docs =>
    match embed_store (split_documents 1000 200 docs) with
    | Except.error e => Except.error e
    | Except.ok store =>
      match retrieve store q with
      | Except.error e => Except.error e
      | Except.ok retrieved => generate (rag_prompt (format_docs retrieved) q)

/-- C8: any failure raised by an external collaborator at any stage (loading,
embedding and storage, retrieval, model call) propagates unchanged to the
top-level result of the pipeline; no stage of the repository-owned sequencing
catches, classifies, transforms, or retries it. -/
theorem rag_pipeline_error_propagation (ε σ : Type) (load : Unit → Except ε (List Doc))
    (embed_store : List Doc → Except ε σ)
    (retrieve : σ → String → Except ε (List Doc))
    (generate : String → Except ε String) (q : String) (e : ε) :
    (load () = Except.error e →
      rag_pipeline ε σ load embed_store retrieve generate q = Except.error e) ∧
    (∀ docs, load () = Except.ok docs →
      embed_store (split_documents 1000 200 docs) = Except.error e →
      rag_pipeline ε σ load embed_store retrieve generate q = Except.error e) ∧
    (∀ docs store, load () = Except.ok docs →
      embed_store (split_documents 1000 200 docs) = Except.ok store →
      retrieve store q = Except.error e →
      rag_pipeline ε σ load embed_store retrieve generate q = Except.error e) ∧
    (∀ docs store retrieved, load () = Except.ok docs →
      embed_store (split_documents 1000 200 docs) = Except.ok store →
      retrieve store q = Except.ok retrieved →
      generate (rag_prompt (format_docs retrieved) q) = Except.error e →
      rag_pipeline ε σ load embed_store retrieve generate q = Except.error e) := by
  refine ⟨?_, ?_, ?_, ?_⟩
  · intro h
    simp [rag_pipeline, h]
  · intro docs h1 h2
    simp [rag_pipeline, h1, h2]
  · intro docs store h1 h2 h3
    simp [rag_pipeline, h1, h2, h3]
  · intro docs store retrieved h1 h2 h3 h4
    simp [rag_pipeline, h1, h2, h3, h4]

/-- Witness for C8 at a concrete failing loader: the network error surfaces
unchanged as the pipeline result. -/
theorem rag_pipeline_error_propagation_witness :
    rag_pipeline String Unit (fun _ => Except.error "network error")
      (fun _ => Except.ok ()) (fun _ _ => Except.ok []) (fun _ => Except.ok "ans") "q"
      = Except.error "network error" :=
  (rag_pipeline_error_propagation String Unit (fun _ => Except.error "network error")
    (fun _ => Except.ok ()) (fun _ _ => Except.ok []) (fun _ => Except.ok "ans") "q"
    "network error").1 rfl
